import Mathlib

/-!
Shallow embedding of the resilient HTTP request core of `src/utils/js_client.js`
(the `PumpFunAPI` class): the constructor, the `_request` retry loop with its
response-end handler and transport-error handler, query-parameter serialization,
and the `getAllTokenTrades` paginated collector.  Platform builtins the code
calls (`JSON.parse`, the network) are parameters of the model; everything else
is translated line by line from the source.
-/

/-- A JavaScript JSON value, as produced by `JSON.parse`. -/
inductive JSValue where
  | null
  | bool (b : Bool)
  | num (n : Int)
  | str (s : String)
  | arr (elems : List JSValue)
  | obj (fields : List (String × JSValue))

/-- JavaScript truthiness of a JSON value. -/
def JSValue.truthy : JSValue → Bool
  | .null => false
  | .bool b => b
  | .num n => n ≠ 0
  | .str s => s ≠ ""
  | .arr _ => true
  | .obj _ => true

/-- Property access `v.k` on a parsed JSON value (`undefined` when absent). -/
def JSValue.getField : JSValue → String → Option JSValue
  | .obj fields, k => fields.lookup k
  | _, _ => none

/-- JavaScript string conversion of a value, as template-literal interpolation
performs it. -/
def JSValue.display : JSValue → String
  | .null => "null"
  | .bool b => if b then "true" else "false"
  | .num n => toString n
  | .str s => s
  | .arr _ => ""
  | .obj _ => "[object Object]"

/-- JavaScript `s.trim()`: the string with leading and trailing whitespace
removed. -/
def jsTrim (s : String) : String :=
  ⟨((s.data.dropWhile Char.isWhitespace).reverse.dropWhile
      Char.isWhitespace).reverse⟩

/-- JavaScript `s.substring(0, n)`: the first `n` characters of `s`. -/
def jsSubstring (s : String) (n : Nat) : String :=
  ⟨s.data.take n⟩

/-- A scalar query-parameter value (string / number / boolean). -/
inductive JSPrim where
  | str (s : String)
  | num (n : Int)
  | bool (b : Bool)
deriving DecidableEq, Repr

/-- JavaScript `String(value)` on a scalar. -/
def jsStringOf : JSPrim → String
  | .str s => s
  | .num n => toString n
  | .bool b => if b then "true" else "false"

/-- JavaScript truthiness of an optional string (`null`/`undefined`/`''` are falsy). -/
def jsTruthyStr : Option String → Bool
  | some s => s ≠ ""
  | none => false

/-- JavaScript truthiness of an optional number (`undefined` and `0` are falsy). -/
def jsTruthyNat : Option Nat → Bool
  | some n => n ≠ 0
  | none => false

/-! ## Constructor (`js_client.js` lines 17–33) -/

/-- The options object a caller may pass to `new PumpFunAPI({...})`.  The
constructor destructures only `apiKey`, `maxRetries`, `retryDelay`; the other
fields model extra properties a caller might supply (they are ignored by the
destructuring pattern). -/
structure JsOptions where
  baseUrl : Option String := none
  apiKey : Option String := none
  maxRetries : Option Nat := none
  retryDelay : Option Nat := none
  debug : Option Bool := none
deriving DecidableEq, Repr

/-- The state of a constructed `PumpFunAPI` instance. -/
structure PumpFunAPI where
  baseUrl : String
  apiKey : Option String
  maxRetries : Nat
  retryDelay : Nat
  debug : Option Bool
  headers : List (String × String)
deriving DecidableEq, Repr

/-- `constructor({ apiKey = null, maxRetries = 3, retryDelay = 1000 } = {})`,
lines 17–33.  `envApiKey` models `process.env.PUMPFUN_API_KEY`.  `this.baseUrl`
is assigned the fixed constant; `this.apiKey = apiKey || process.env...`;
`this.debug` is never assigned (stays `undefined`); the `Authorization` header
is added only when `this.apiKey` is truthy. -/
def mkPumpFunAPI (opts : JsOptions) (envApiKey : Option String) : PumpFunAPI :=
  let apiKey := if jsTruthyStr opts.apiKey then opts.apiKey else envApiKey
  { baseUrl := "https://frontend-api-v3.pump.fun"
    apiKey := apiKey
    maxRetries := opts.maxRetries.getD 3
    retryDelay := opts.retryDelay.getD 1000
    debug := none
    headers :=
      [("Accept", "application/json"),
       ("Content-Type", "application/json"),
       ("User-Agent", "PumpFunAPI/1.0.0 (Node.js)")] ++
      (if jsTruthyStr apiKey then
        [("Authorization", "Bearer " ++ apiKey.getD "")]
      else []) }

/-! ## Query-parameter serialization (`_request`, lines 86–92) -/

/-- The `Object.entries(params).forEach` loop of lines 87–91: a key is appended
to `url.searchParams` only when its value is neither `undefined` nor `null`,
and the value is passed through `String(value)`. -/
def buildSearchParams (params : List (String × Option JSPrim)) :
    List (String × String) :=
  params.filterMap fun kv =>
    match kv.2 with
    | some v => some (kv.1, jsStringOf v)
    | none => none

/-! ## Response-end handler (`_request`, lines 117–174) -/

/-- Transport metadata of one HTTP response: status code, the
`retry-after` header in seconds (the only header the code reads), and the
accumulated body text. -/
structure JsResponse where
  status : Nat
  retryAfter : Option Nat
  body : String
deriving DecidableEq, Repr

/-- The classified errors `_request` can reject with, with the data each
`new Error(...)` message and attached `error.response` carry. -/
inductive JsError where
  | emptyResponse (status : Nat)
  | parseFailure (parseMsg : String) (bodyHead : String)
  | apiError (status : Nat) (data : JSValue) (retryAfter : Option Nat)
  | rateLimited (maxRetries : Nat)
  | transport (msg : String)

/-- `jsonResponse.message || jsonResponse.error || 'Unknown error'` (line 145),
with `undefined` field reads treated as falsy like `null`. -/
def jsonErrorText (j : JSValue) : String :=
  let m := (j.getField "message").getD .null
  let e := (j.getField "error").getD .null
  let chosen := if m.truthy then m else if e.truthy then e else .str "Unknown error"
  chosen.display

/-- The message string of each `new Error(...)` in the handler, from the
template literals at lines 131, 140, 146 and 164. -/
def JsError.message : JsError → String
  | .emptyResponse status => "Empty response with status " ++ toString status
  | .parseFailure parseMsg bodyHead =>
    "Failed to parse JSON response: " ++ parseMsg ++ "\nResponse: " ++ bodyHead ++ "..."
  | .apiError status data _ =>
    "API request failed with status " ++ toString status ++ ": " ++ jsonErrorText data
  | .rateLimited maxRetries =>
    "Rate limited after " ++ toString maxRetries ++ " attempts"
  | .transport msg => msg

/-- Outcome of the `res.on('end')` handler: resolve, reject, or schedule a
retry (`setTimeout(() => makeRequest(attempt + 1), delayMs)`). -/
inductive EndOutcome where
  | resolved (v : JSValue)
  | rejected (e : JsError)
  | retry (delayMs : Nat) (nextAttempt : Nat)

/-- Retry configuration carried on `this`: `maxRetries` and `retryDelay`. -/
structure RetryConfig where
  maxRetries : Nat
  retryDelay : Nat
deriving DecidableEq, Repr

/-- The body of `res.on('end', ...)` (lines 117–174), with `JSON.parse`
supplied as the `parse` parameter.  The checks run in source order:
empty-body (127), JSON parse (137), `statusCode >= 400` (144),
`statusCode === 429` (156), success (169). -/
def handleEnd (cfg : RetryConfig) (parse : String → Except String JSValue)
    (res : JsResponse) (attempt : Nat) : EndOutcome :=
  if jsTrim res.body = "" then
    if 200 ≤ res.status ∧ res.status < 300 then
      .resolved (.obj [])
    else
      .rejected (.emptyResponse res.status)
  else
    match parse res.body with
    | .error e => .rejected (.parseFailure e (jsSubstring res.body 200))
    | .ok jsonResponse =>
      if 400 ≤ res.status then
        .rejected (.apiError res.status jsonResponse res.retryAfter)
      else if res.status = 429 then
        let retryAfter :=
          match res.retryAfter with
          | some v => v
          | none => cfg.retryDelay / 1000
        if attempt < cfg.maxRetries then
          .retry (retryAfter * 1000) (attempt + 1)
        else
          .rejected (.rateLimited cfg.maxRetries)
      else
        .resolved jsonResponse

/-! ## The retry loop (`makeRequest`, lines 94–204) -/

/-- What the environment delivers for one physical attempt: either the
`req.on('error')` event fires (connection failure, or the timeout destroying
the request), or a complete response reaches `res.on('end')`. -/
inductive AttemptOutcome where
  | transportError (msg : String)
  | response (r : JsResponse)

/-- Final state of one logical `_request` call. -/
inductive ReqResult where
  | resolved (v : JSValue)
  | rejected (e : JsError)
  | pending

/-- A run of the retry loop: the settled result, the sleep durations (ms)
inserted before each retry, and the number of physical attempts that
completed. -/
structure RunTrace where
  result : ReqResult
  delays : List Nat
  attemptsUsed : Nat

/-- `makeRequest(attempt)` (lines 94–202) driven by a finite list of attempt
outcomes.  A transport error with `attempt < this.maxRetries` sleeps
`Math.min(this.retryDelay * Math.pow(2, attempt), 30000)` and recurses with
`attempt + 1` (lines 177–187); otherwise the response-end handler decides.
An empty outcome list leaves the request pending. -/
def makeRequest (cfg : RetryConfig) (parse : String → Except String JSValue) :
    List AttemptOutcome → Nat → RunTrace
  | [], _ => ⟨.pending, [], 0⟩
  | o :: rest, attempt =>
    match o with
    | .transportError msg =>
      if attempt < cfg.maxRetries then
        let delay := min (cfg.retryDelay * 2 ^ attempt) 30000
        let t := makeRequest cfg parse rest (attempt + 1)
        ⟨t.result, delay :: t.delays, t.attemptsUsed + 1⟩
      else
        ⟨.rejected (.transport msg), [], 1⟩
    | .response r =>
      match handleEnd cfg parse r attempt with
      | .resolved v => ⟨.resolved v, [], 1⟩
      | .rejected e => ⟨.rejected e, [], 1⟩
      | .retry d a =>
        let t := makeRequest cfg parse rest a
        ⟨t.result, d :: t.delays, t.attemptsUsed + 1⟩

/-- One logical `_request` call: `makeRequest()` starts at attempt 0
(line 204). -/
def runRequest (cfg : RetryConfig) (parse : String → Except String JSValue)
    (outcomes : List AttemptOutcome) : RunTrace :=
  makeRequest cfg parse outcomes 0

/-! ## Paginated collector (`getAllTokenTrades`, lines 330–371) -/

/-- One page-fetch outcome as `await this.getTokenTrades(...)` delivers it:
a rejection carrying an error, or a response object whose `trades` field may
be absent (`response.trades || []`). -/
abbrev PageOutcome (ε α : Type) : Type := Except ε (Option (List α))

/-- Final state of one `getAllTokenTrades` call: the materialized array, the
propagated page-fetch error, or the loop still waiting for a page that the
supplied outcome list does not contain. -/
inductive CollectResult (ε α : Type) where
  | ok (trades : List α)
  | err (e : ε)
  | pending

/-- A run of the collector loop: its result, the `(offset, limit)` argument
pair of each `getTokenTrades` call issued, and the number of 500 ms
courtesy sleeps inserted. -/
structure CollectTrace (ε α : Type) where
  result : CollectResult ε α
  requests : List (Nat × Nat)
  sleeps : Nat

/-- The loop-break test `maxTrades && allTrades.length >= maxTrades` of
line 341 (`maxTrades` may be `undefined`, and `0` is falsy). -/
def capReached (maxTrades : Option Nat) (collected : Nat) : Bool :=
  jsTruthyNat maxTrades && decide (maxTrades.getD 0 ≤ collected)

/-- The per-page request size
`maxTrades ? Math.min(batchSize, maxTrades - allTrades.length) : batchSize`
of lines 345–347. -/
def pageLimit (batchSize : Nat) (maxTrades : Option Nat) (collected : Nat) :
    Nat :=
  if jsTruthyNat maxTrades then
    min batchSize (maxTrades.getD 0 - collected)
  else batchSize

/-- The `while (hasMore)` loop of lines 340–368, driven by a finite list of
page outcomes consumed in order.  Per iteration: break when the cap test of
line 341 fires; request `pageLimit` items at the current offset; a failed
fetch rejects the whole call; an empty `trades` array ends the loop (357);
otherwise the items are appended, `offset += trades.length` (361), and a
500 ms sleep follows a full-size page (364). -/
def getAllTokenTrades {ε α : Type} (batchSize : Nat) (maxTrades : Option Nat) :
    List (PageOutcome ε α) → List α → Nat → CollectTrace ε α
  | [], allTrades, offset =>
    if capReached maxTrades allTrades.length then
      ⟨.ok allTrades, [], 0⟩
    else
      ⟨.pending, [(offset, pageLimit batchSize maxTrades allTrades.length)], 0⟩
  | .error e :: _, allTrades, offset =>
    if capReached maxTrades allTrades.length then
      ⟨.ok allTrades, [], 0⟩
    else
      ⟨.err e, [(offset, pageLimit batchSize maxTrades allTrades.length)], 0⟩
  | .ok resp :: rest, allTrades, offset =>
    if capReached maxTrades allTrades.length then
      ⟨.ok allTrades, [], 0⟩
    else
      let limit := pageLimit batchSize maxTrades allTrades.length
      let trades := resp.getD []
      if trades.length = 0 then
        ⟨.ok allTrades, [(offset, limit)], 0⟩
      else
        let t := getAllTokenTrades batchSize maxTrades rest
          (allTrades ++ trades) (offset + trades.length)
        ⟨t.result, (offset, limit) :: t.requests,
         (if trades.length = batchSize then 1 else 0) + t.sleeps⟩

/-- A list of successful pages, each with a present `trades` array. -/
def pagesOf {ε α : Type} (ls : List (List α)) : List (PageOutcome ε α) :=
  ls.map fun l => Except.ok (some l)

/-- Whether each page a run would consume stays within the limit that the
loop requests for it (the per-page fetch passes `limit` to the endpoint, so
a conforming remote never returns a larger page).  Mirrors the loop's own
break / limit / stop structure. -/
def respectsLimits {α : Type} (batchSize : Nat) (maxTrades : Option Nat) :
    List (List α) → Nat → Bool
  | [], _ => true
  | p :: rest, collected =>
    if capReached maxTrades collected then true
    else
      decide (p.length ≤ pageLimit batchSize maxTrades collected) &&
        (if p.length = 0 then true
         else respectsLimits batchSize maxTrades rest (collected + p.length))

/-! ## Helper lemmas -/

/-- In a pair list with duplicate-free keys, a key determines its value. -/
lemma lookup_unique {β : Type} {l : List (String × β)}
    (h : (l.map Prod.fst).Nodup) {k : String} {a b : β}
    (ha : (k, a) ∈ l) (hb : (k, b) ∈ l) : a = b := by
  induction l with
  | nil => cases ha
  | cons x xs ih =>
    simp only [List.map_cons, List.nodup_cons] at h
    rcases List.mem_cons.mp ha with ha1 | ha1 <;>
      rcases List.mem_cons.mp hb with hb1 | hb1
    · rw [← ha1] at hb1; exact congrArg Prod.snd hb1.symm
    · exact absurd (List.mem_map_of_mem Prod.fst hb1)
        (by rw [← ha1] at h; exact h.1)
    · exact absurd (List.mem_map_of_mem Prod.fst ha1)
        (by rw [← hb1] at h; exact h.1)
    · exact ih h.2 ha1 hb1

/-- The `res.statusCode >= 400` check at line 144 fires on every status the
`statusCode === 429` check at line 156 would match, so the handler can never
schedule a rate-limit retry. -/
lemma handleEnd_ne_retry (cfg : RetryConfig)
    (parse : String → Except String JSValue) (res : JsResponse)
    (attempt d a : Nat) :
    handleEnd cfg parse res attempt ≠ EndOutcome.retry d a := by
  unfold handleEnd
  by_cases h0 : jsTrim res.body = ""
  · simp only [h0, if_true]
    split <;> intro h <;> cases h
  · simp only [h0, if_false]
    rcases parse res.body with e | j
    · intro h; cases h
    · by_cases h4 : 400 ≤ res.status
      · simp only [h4, if_true]; intro h; cases h
      · have h9 : res.status ≠ 429 := by omega
        simp only [h4, if_false, h9]
        intro h; cases h

/-! ## Claims about the request executor -/

/-- C1: contrary to the claim, a 429 response is never retried: the
`statusCode >= 400` rejection at line 144 precedes the rate-limit branch at
line 156, so (first conjunct) no input whatsoever makes the end handler
schedule a retry, and (second conjunct) a concrete 429 response with
`Retry-After: 2` and attempts remaining is rejected immediately as an API
error instead of being retried after the advertised delay. -/
theorem c1_rate_limit_branch_unreachable :
    (∀ (cfg : RetryConfig) (parse : String → Except String JSValue)
      (res : JsResponse) (attempt d a : Nat),
      handleEnd cfg parse res attempt ≠ EndOutcome.retry d a) ∧
    handleEnd ⟨3, 1000⟩ (fun _ => .ok (.obj []))
      ⟨429, some 2, "{}"⟩ 0 =
      EndOutcome.rejected (.apiError 429 (.obj []) (some 2)) := by
  refine ⟨handleEnd_ne_retry, ?_⟩
  unfold handleEnd
  rw [if_neg (by decide)]
  norm_num

/-- C2 counterexample: the constructor ignores a supplied `baseUrl` (the host
stays the hard-coded constant) and a supplied `debug` flag (`this.debug` is
never assigned), refuting the claimed five-field configuration surface. -/
theorem c2_counterexample :
    (mkPumpFunAPI { baseUrl := some "https://example.com", debug := some true }
        none).baseUrl ≠ "https://example.com" ∧
    (mkPumpFunAPI { baseUrl := some "https://example.com", debug := some true }
        none).debug ≠ some true := by
  constructor <;> decide

/-- C2 (amended): the constructor accepts only `{apiKey, maxRetries,
retryDelay}`: `apiKey` sets the bearer token (falling back to the
`PUMPFUN_API_KEY` environment variable), `maxRetries` defaults to 3,
`retryDelay` defaults to 1000 ms; `baseUrl` is always the fixed constant and
`debug` is never set by the constructor. -/
theorem c2_config_surface (opts : JsOptions) (env : Option String) :
    (mkPumpFunAPI opts env).baseUrl = "https://frontend-api-v3.pump.fun" ∧
    (mkPumpFunAPI opts env).maxRetries = opts.maxRetries.getD 3 ∧
    (mkPumpFunAPI opts env).retryDelay = opts.retryDelay.getD 1000 ∧
    (mkPumpFunAPI opts env).apiKey =
      (if jsTruthyStr opts.apiKey then opts.apiKey else env) ∧
    (mkPumpFunAPI opts env).debug = none ∧
    (∀ k, (mkPumpFunAPI opts env).apiKey = some k → k ≠ "" →
      ("Authorization", "Bearer " ++ k) ∈ (mkPumpFunAPI opts env).headers) := by
  refine ⟨rfl, rfl, rfl, rfl, rfl, ?_⟩
  intro k hk hne
  simp only [mkPumpFunAPI] at hk ⊢
  rw [hk]
  simp [jsTruthyStr, hne]

/-- C3: a transport failure on 0-based attempt `a` with `a < maxRetries`
sleeps exactly `min(retryDelay * 2^a, 30000)` ms before the next attempt;
with attempts exhausted the underlying transport error is propagated
unchanged after a single further attempt and no sleep. -/
theorem c3_transport_backoff (cfg : RetryConfig)
    (parse : String → Except String JSValue) (msg : String)
    (rest : List AttemptOutcome) (a : Nat) :
    (a < cfg.maxRetries →
      (makeRequest cfg parse (.transportError msg :: rest) a).delays.head? =
        some (min (cfg.retryDelay * 2 ^ a) 30000)) ∧
    (cfg.maxRetries ≤ a →
      makeRequest cfg parse (.transportError msg :: rest) a =
        ⟨.rejected (.transport msg), [], 1⟩) := by
  constructor
  · intro h
    simp [makeRequest, h]
  · intro h
    have h' : ¬ a < cfg.maxRetries := by omega
    simp [makeRequest, h']

/-- Witness for C3 at `maxRetries = 3`, `retryDelay = 1000`, attempt 0. -/
theorem c3_transport_backoff_witness :
    (makeRequest ⟨3, 1000⟩ (fun _ => .error "")
      [.transportError "ECONNRESET"] 0).delays.head? =
      some (min (1000 * 2 ^ 0) 30000) :=
  (c3_transport_backoff ⟨3, 1000⟩ (fun _ => .error "") "ECONNRESET" [] 0).1
    (by decide)

/-- Any run of the retry loop starting at `attempt` completes at most
`maxRetries - attempt + 1` physical attempts. -/
lemma makeRequest_attempts_le (cfg : RetryConfig)
    (parse : String → Except String JSValue) :
    ∀ (outcomes : List AttemptOutcome) (attempt : Nat),
      (makeRequest cfg parse outcomes attempt).attemptsUsed ≤
        (cfg.maxRetries - attempt) + 1 := by
  intro outcomes
  induction outcomes with
  | nil => intro attempt; simp [makeRequest]
  | cons o rest ih =>
    intro attempt
    match o with
    | .transportError msg =>
      by_cases h : attempt < cfg.maxRetries
      · have := ih (attempt + 1)
        simp only [makeRequest, h, if_true]
        omega
      · simp [makeRequest, h]
    | .response r =>
      rcases he : handleEnd cfg parse r attempt with v | e | ⟨d, a⟩
      · simp only [makeRequest, he]; omega
      · simp only [makeRequest, he]; omega
      · exact absurd he (handleEnd_ne_retry cfg parse r attempt d a)

/-- C4: for every logical request and every sequence of attempt outcomes, the
number of physical attempts never exceeds `maxRetries + 1`. -/
theorem c4_attempt_bound (cfg : RetryConfig)
    (parse : String → Except String JSValue)
    (outcomes : List AttemptOutcome) :
    (runRequest cfg parse outcomes).attemptsUsed ≤ cfg.maxRetries + 1 := by
  have h := makeRequest_attempts_le cfg parse outcomes 0
  simpa [runRequest] using h

/-- C7: in a query-parameter mapping with duplicate-free keys, every key
bound to `null`/`undefined` is absent from the serialized parameters, and
every remaining binding appears with its value stringified. -/
theorem c7_query_serialization (params : List (String × Option JSPrim))
    (hnodup : (params.map Prod.fst).Nodup) :
    (∀ k, (k, (none : Option JSPrim)) ∈ params →
      k ∉ (buildSearchParams params).map Prod.fst) ∧
    (∀ k v, (k, some v) ∈ params →
      (k, jsStringOf v) ∈ buildSearchParams params) := by
  constructor
  · intro k hk hmem
    rcases List.mem_map.mp hmem with ⟨⟨k2, s⟩, hmem2, hfst⟩
    rcases List.mem_filterMap.mp hmem2 with ⟨⟨k3, ov⟩, hmem3, hval⟩
    cases ov with
    | none => exact absurd hval (by simp [buildSearchParams])
    | some v =>
      simp only at hval
      rcases Option.some.inj hval with h
      have hk3 : k3 = k2 := congrArg Prod.fst h
      rw [hk3] at hmem3
      have hfst' : k2 = k := hfst
      rw [hfst'] at hmem3
      exact Option.noConfusion (lookup_unique hnodup hmem3 hk)
  · intro k v hmem
    exact List.mem_filterMap.mpr ⟨(k, some v), hmem, rfl⟩

/-- Witness for C7 on a two-entry mapping with one null value. -/
theorem c7_query_serialization_witness :
    ("nullKey" ∉ (buildSearchParams
      [("limit", some (.str "50")), ("nullKey", none)]).map Prod.fst) ∧
    ("limit", jsStringOf (.str "50")) ∈ buildSearchParams
      [("limit", some (.str "50")), ("nullKey", none)] :=
  ⟨(c7_query_serialization
      [("limit", some (.str "50")), ("nullKey", none)] (by decide)).1
      "nullKey" (by decide),
   (c7_query_serialization
      [("limit", some (.str "50")), ("nullKey", none)] (by decide)).2
      "limit" (.str "50") (by decide)⟩

/-- C8: a non-blank body that fails JSON parsing is rejected at once with a
malformed-response error carrying the first 200 characters of the raw body;
exactly one attempt runs and no retry delay is inserted, and the error
message embeds that 200-character head. -/
theorem c8_malformed_not_retried (cfg : RetryConfig)
    (parse : String → Except String JSValue) (r : JsResponse)
    (rest : List AttemptOutcome) (msg : String)
    (hne : jsTrim r.body ≠ "") (hp : parse r.body = .error msg) :
    runRequest cfg parse (.response r :: rest) =
      ⟨.rejected (.parseFailure msg (jsSubstring r.body 200)), [], 1⟩ ∧
    (JsError.parseFailure msg (jsSubstring r.body 200)).message =
      "Failed to parse JSON response: " ++ msg ++ "\nResponse: " ++
        jsSubstring r.body 200 ++ "..." := by
  refine ⟨?_, rfl⟩
  simp [runRequest, makeRequest, handleEnd, hne, hp]

/-- Witness for C8: a status-200 response with body "not json". -/
theorem c8_malformed_not_retried_witness :
    runRequest ⟨3, 1000⟩ (fun _ => .error "Unexpected token")
      [.response ⟨200, none, "not json"⟩] =
      ⟨.rejected (.parseFailure "Unexpected token"
        (jsSubstring "not json" 200)), [], 1⟩ ∧
    (JsError.parseFailure "Unexpected token"
        (jsSubstring "not json" 200)).message =
      "Failed to parse JSON response: " ++ "Unexpected token" ++
        "\nResponse: " ++ jsSubstring "not json" 200 ++ "..." :=
  c8_malformed_not_retried ⟨3, 1000⟩ (fun _ => .error "Unexpected token")
    ⟨200, none, "not json"⟩ [] "Unexpected token" (by decide) rfl

/-- C9: a whitespace-only body resolves to an empty object when the status is
in 200–299 and is rejected otherwise, in a single attempt either way. -/
theorem c9_empty_body (cfg : RetryConfig)
    (parse : String → Except String JSValue) (r : JsResponse)
    (rest : List AttemptOutcome) (h : jsTrim r.body = "") :
    (200 ≤ r.status ∧ r.status < 300 →
      runRequest cfg parse (.response r :: rest) =
        ⟨.resolved (.obj []), [], 1⟩) ∧
    (¬(200 ≤ r.status ∧ r.status < 300) →
      runRequest cfg parse (.response r :: rest) =
        ⟨.rejected (.emptyResponse r.status), [], 1⟩) := by
  constructor <;> intro hs <;>
    simp [runRequest, makeRequest, handleEnd, h, hs]

/-- Witness for C9: an empty 204 body resolves, an empty 500 body rejects. -/
theorem c9_empty_body_witness :
    runRequest ⟨3, 1000⟩ (fun _ => .error "") [.response ⟨204, none, " "⟩] =
      ⟨.resolved (.obj []), [], 1⟩ ∧
    runRequest ⟨3, 1000⟩ (fun _ => .error "") [.response ⟨500, none, ""⟩] =
      ⟨.rejected (.emptyResponse 500), [], 1⟩ :=
  ⟨(c9_empty_body ⟨3, 1000⟩ (fun _ => .error "") ⟨204, none, " "⟩ []
      (by decide)).1 (by decide),
   (c9_empty_body ⟨3, 1000⟩ (fun _ => .error "") ⟨500, none, ""⟩ []
      (by decide)).2 (by decide)⟩


/-! ## Claims about the paginated collector -/

/-- C10: `maxTrades = 0` is falsy in both the `maxTrades && ...` break test
(line 341) and the `maxTrades ? ... : batchSize` limit choice (line 345), so
a zero cap behaves exactly like an absent cap in every state of the loop. -/
theorem c10_zero_cap_is_absent {ε α : Type} (batchSize : Nat) :
    ∀ (pages : List (PageOutcome ε α)) (acc : List α) (offset : Nat),
      getAllTokenTrades batchSize (some 0) pages acc offset =
        getAllTokenTrades batchSize none pages acc offset := by
  have hc : ∀ c, capReached (some 0) c = capReached none c := by
    intro c; simp [capReached, jsTruthyNat]
  have hl : ∀ c, pageLimit batchSize (some 0) c = pageLimit batchSize none c := by
    intro c; simp [pageLimit, jsTruthyNat]
  intro pages
  induction pages with
  | nil => intro acc offset; simp [getAllTokenTrades, hc, hl]
  | cons p ps ih =>
    intro acc offset
    cases p with
    | error e => simp [getAllTokenTrades, hc, hl]
    | ok resp =>
      simp only [getAllTokenTrades, hc, hl]
      by_cases h0 : (resp.getD []).length = 0
      · simp [h0]
      · simp [h0, ih]

/-- A failing page fetch in an active loop aborts the collection with that
error after exactly one further fetch, whatever pages the environment could
still supply. -/
lemma collect_error_propagates {ε α : Type} (batchSize : Nat) (e : ε)
    (rest : List (PageOutcome ε α)) :
    ∀ (ls : List (List α)) (acc : List α) (offset : Nat),
      (∀ l ∈ ls, l ≠ []) →
      (getAllTokenTrades batchSize none
          (pagesOf ls ++ Except.error e :: rest) acc offset).result =
        CollectResult.err e ∧
      (getAllTokenTrades batchSize none
          (pagesOf ls ++ Except.error e :: rest) acc offset).requests.length =
        ls.length + 1 := by
  intro ls
  induction ls with
  | nil =>
    intro acc offset _
    simp [getAllTokenTrades, pagesOf, capReached, jsTruthyNat]
  | cons p ps ih =>
    intro acc offset hne
    have hp : p ≠ [] := hne p (List.mem_cons_self p ps)
    have hp0 : ¬ p.length = 0 := fun h => hp (List.length_eq_zero.mp h)
    have ihr := ih (acc ++ p) (offset + p.length)
      (fun l hl => hne l (List.mem_cons_of_mem p hl))
    simp only [pagesOf, List.map_cons, List.cons_append] at ihr ⊢
    simp [getAllTokenTrades, capReached, jsTruthyNat, hp0, ihr.1, ihr.2,
      pagesOf]

/-- C6: the collector retries nothing itself: with any number of non-empty
pages already delivered, a page-fetch failure makes the whole collection fail
with that same error — the accumulated items are discarded (the error result
carries none of them) and the failing fetch is issued exactly once. -/
theorem c6_error_aborts_collection {ε α : Type} (batchSize : Nat) (e : ε)
    (rest : List (PageOutcome ε α)) (ls : List (List α))
    (hne : ∀ l ∈ ls, l ≠ []) :
    (getAllTokenTrades batchSize none
        (pagesOf ls ++ Except.error e :: rest) [] 0).result =
      CollectResult.err e ∧
    (getAllTokenTrades batchSize none
        (pagesOf ls ++ Except.error e :: rest) [] 0).requests.length =
      ls.length + 1 :=
  collect_error_propagates batchSize e rest ls [] 0 hne

/-- Witness for C6: two non-empty pages then a failure. -/
theorem c6_error_aborts_collection_witness :
    (getAllTokenTrades 2 none
        (pagesOf [[1, 2], [3]] ++ Except.error "boom" ::
          ([] : List (PageOutcome String Nat))) [] 0).result =
      CollectResult.err "boom" ∧
    (getAllTokenTrades 2 none
        (pagesOf [[1, 2], [3]] ++ Except.error "boom" ::
          ([] : List (PageOutcome String Nat))) [] 0).requests.length =
      2 + 1 :=
  c6_error_aborts_collection 2 "boom" [] [[1, 2], [3]] (by decide)

/-- Generalized invariant of a collector run over successful pages: from a
state whose offset equals the number of items already collected and that has
not passed the cap, (1) an `ok` result is the already-collected items
followed by the consumed pages in order, and never exceeds the cap; (2) every
consumed page except possibly the last is non-empty; (3) the `k`-th fetch is
issued at the offset equal to the items collected before it and requests
exactly the line-345 limit for that state. -/
lemma collect_ok_spec {ε α : Type} (batchSize : Nat) (maxTrades : Option Nat) :
    ∀ (ls : List (List α)) (acc : List α) (offset : Nat),
      offset = acc.length →
      (∀ m, maxTrades = some m → m ≠ 0 → acc.length ≤ m) →
      respectsLimits batchSize maxTrades ls acc.length = true →
      (∀ l,
        (getAllTokenTrades (ε := ε) batchSize maxTrades (pagesOf ls) acc
            offset).result = CollectResult.ok l →
        l = acc ++ (ls.take (getAllTokenTrades (ε := ε) batchSize maxTrades
            (pagesOf ls) acc offset).requests.length).flatten ∧
        ∀ m, maxTrades = some m → m ≠ 0 → l.length ≤ m) ∧
      (∀ i, i + 1 < (getAllTokenTrades (ε := ε) batchSize maxTrades
          (pagesOf ls) acc offset).requests.length → ls[i]? ≠ some []) ∧
      (∀ i, i < (getAllTokenTrades (ε := ε) batchSize maxTrades
          (pagesOf ls) acc offset).requests.length →
        (getAllTokenTrades (ε := ε) batchSize maxTrades (pagesOf ls) acc
            offset).requests[i]? =
          some (acc.length + ((ls.take i).flatten).length,
            pageLimit batchSize maxTrades
              (acc.length + ((ls.take i).flatten).length))) := by
  intro ls
  induction ls with
  | nil =>
    intro acc offset hoff hcap _
    by_cases hb : capReached maxTrades acc.length
    · have ht : getAllTokenTrades (ε := ε) batchSize maxTrades (pagesOf [])
          acc offset = ⟨.ok acc, [], 0⟩ := by
        simp [pagesOf, getAllTokenTrades, hb]
      rw [ht]
      refine ⟨?_, ?_, ?_⟩
      · intro l hl
        cases hl
        exact ⟨by simp, hcap⟩
      · intro i hi; simp at hi
      · intro i hi; simp at hi
    · have ht : getAllTokenTrades (ε := ε) batchSize maxTrades (pagesOf [])
          acc offset =
          ⟨.pending, [(offset, pageLimit batchSize maxTrades acc.length)],
           0⟩ := by
        simp [pagesOf, getAllTokenTrades, hb]
      rw [ht]
      refine ⟨?_, ?_, ?_⟩
      · intro l hl; exact absurd hl (by simp)
      · intro i hi
        simp only [List.length_cons, List.length_nil] at hi
        omega
      · intro i hi
        simp only [List.length_cons, List.length_nil] at hi
        interval_cases i
        simp [hoff]
  | cons p ps ih =>
    intro acc offset hoff hcap hresp
    by_cases hb : capReached maxTrades acc.length
    · have ht : getAllTokenTrades (ε := ε) batchSize maxTrades
          (pagesOf (p :: ps)) acc offset = ⟨.ok acc, [], 0⟩ := by
        simp [pagesOf, getAllTokenTrades, hb]
      rw [ht]
      refine ⟨?_, ?_, ?_⟩
      · intro l hl
        cases hl
        exact ⟨by simp, hcap⟩
      · intro i hi; simp at hi
      · intro i hi; simp at hi
    · by_cases hp0 : p.length = 0
      · have ht : getAllTokenTrades (ε := ε) batchSize maxTrades
            (pagesOf (p :: ps)) acc offset =
            ⟨.ok acc,
             [(offset, pageLimit batchSize maxTrades acc.length)], 0⟩ := by
          simp [pagesOf, getAllTokenTrades, hb, hp0]
        rw [ht]
        refine ⟨?_, ?_, ?_⟩
        · intro l hl
          cases hl
          refine ⟨?_, hcap⟩
          have hpnil : p = [] := List.length_eq_zero.mp hp0
          simp [hpnil]
        · intro i hi
          simp only [List.length_cons, List.length_nil] at hi
          omega
        · intro i hi
          simp only [List.length_cons, List.length_nil] at hi
          interval_cases i
          simp [hoff]
      · have hsplit : p.length ≤ pageLimit batchSize maxTrades acc.length ∧
            respectsLimits batchSize maxTrades ps
              (acc.length + p.length) = true := by
          simpa [respectsLimits, hb, hp0] using hresp
        obtain ⟨hplen, hrest⟩ := hsplit
        have hcap' : ∀ m, maxTrades = some m → m ≠ 0 →
            (acc ++ p).length ≤ m := by
          intro m hm hm0
          subst hm
          have htr : jsTruthyNat (some m) = true := by
            simp [jsTruthyNat, hm0]
          have hlt : acc.length < m := by
            simp only [capReached, htr, Bool.true_and, decide_eq_true_eq,
              Option.getD_some] at hb
            omega
          have hle : pageLimit batchSize (some m) acc.length ≤
              m - acc.length := by
            simp only [pageLimit, htr, if_true, Option.getD_some]
            exact min_le_right _ _
          simp only [List.length_append]
          omega
        have hoff' : offset + p.length = (acc ++ p).length := by
          simp [hoff]
        have hresp' : respectsLimits batchSize maxTrades ps
            (acc ++ p).length = true := by
          simpa [List.length_append] using hrest
        obtain ⟨c1, c2, c3⟩ := ih (acc ++ p) (offset + p.length) hoff'
          hcap' hresp'
        have ht : getAllTokenTrades (ε := ε) batchSize maxTrades
            (pagesOf (p :: ps)) acc offset =
            ⟨(getAllTokenTrades (ε := ε) batchSize maxTrades (pagesOf ps)
                (acc ++ p) (offset + p.length)).result,
             (offset, pageLimit batchSize maxTrades acc.length) ::
               (getAllTokenTrades (ε := ε) batchSize maxTrades (pagesOf ps)
                 (acc ++ p) (offset + p.length)).requests,
             (if p.length = batchSize then 1 else 0) +
               (getAllTokenTrades (ε := ε) batchSize maxTrades (pagesOf ps)
                 (acc ++ p) (offset + p.length)).sleeps⟩ := by
          simp [pagesOf, getAllTokenTrades, hb, hp0]
        rw [ht]
        refine ⟨?_, ?_, ?_⟩
        · intro l hl
          obtain ⟨hl1, hl2⟩ := c1 l hl
          refine ⟨?_, hl2⟩
          simp only [List.length_cons, List.take_succ_cons,
            List.flatten_cons, ← List.append_assoc]
          exact hl1
        · intro i hi
          simp only [List.length_cons] at hi
          cases i with
          | zero =>
            simp only [List.getElem?_cons_zero]
            intro h
            have : p = [] := Option.some.inj h
            exact hp0 (by simp [this])
          | succ j =>
            simp only [List.getElem?_cons_succ]
            exact c2 j (by omega)
        · intro i hi
          simp only [List.length_cons] at hi
          cases i with
          | zero =>
            simp [hoff]
          | succ j =>
            have hj := c3 j (by omega)
            simp only [List.getElem?_cons_succ, hj,
              List.take_succ_cons, List.flatten_cons, List.length_append,
              List.length_cons]
            rw [Nat.add_assoc]

/-- C5: over any sequence of pages that stay within the requested limits, the
collector returns the concatenation of the consumed pages' items in original
order, stops at the first empty page (every earlier consumed page is
non-empty), issues each fetch at the offset equal to the number of items
already returned, requests `min(batchSize, maxTrades − collected)` items per
page when a non-zero cap is supplied (`batchSize` otherwise), and never
returns more than `maxTrades` items. -/
theorem c5_collector_contract {ε α : Type} (batchSize : Nat)
    (maxTrades : Option Nat) (ls : List (List α))
    (hresp : respectsLimits batchSize maxTrades ls 0 = true) :
    (∀ l,
      (getAllTokenTrades (ε := ε) batchSize maxTrades (pagesOf ls) []
          0).result = CollectResult.ok l →
      l = (ls.take (getAllTokenTrades (ε := ε) batchSize maxTrades
          (pagesOf ls) [] 0).requests.length).flatten ∧
      ∀ m, maxTrades = some m → m ≠ 0 → l.length ≤ m) ∧
    (∀ i, i + 1 < (getAllTokenTrades (ε := ε) batchSize maxTrades
        (pagesOf ls) [] 0).requests.length → ls[i]? ≠ some []) ∧
    (∀ i, i < (getAllTokenTrades (ε := ε) batchSize maxTrades
        (pagesOf ls) [] 0).requests.length →
      (getAllTokenTrades (ε := ε) batchSize maxTrades (pagesOf ls) []
          0).requests[i]? =
        some (((ls.take i).flatten).length,
          match maxTrades with
          | some m =>
            if m = 0 then batchSize
            else min batchSize (m - ((ls.take i).flatten).length)
          | none => batchSize)) := by
  obtain ⟨c1, c2, c3⟩ := collect_ok_spec (ε := ε) batchSize maxTrades ls [] 0
    rfl (fun m _ _ => by simp) (by simpa using hresp)
  refine ⟨?_, c2, ?_⟩
  · intro l hl
    obtain ⟨h1, h2⟩ := c1 l hl
    exact ⟨by simpa using h1, h2⟩
  · intro i hi
    have h := c3 i hi
    rw [h]
    simp only [List.length_nil, Nat.zero_add]
    cases maxTrades with
    | none => simp [pageLimit, jsTruthyNat]
    | some m =>
      by_cases hm : m = 0
      · subst hm; simp [pageLimit, jsTruthyNat]
      · simp [pageLimit, jsTruthyNat, hm]

/-- Witness for C5: the spec's mock — page size 2, cap 3, pages [2,1]. -/
theorem c5_collector_contract_witness :
    ([10, 20, 30] : List Nat) =
      ([[10, 20], [30]].take (getAllTokenTrades 2 (some 3)
        (pagesOf [[10, 20], [30]] : List (PageOutcome String Nat)) []
        0).requests.length).flatten ∧
    ∀ m, (some 3 : Option Nat) = some m → m ≠ 0 →
      ([10, 20, 30] : List Nat).length ≤ m :=
  (c5_collector_contract 2 (some 3) [[10, 20], [30]] (by decide)).1
    [10, 20, 30] rfl
